import Mathlib

/-!
Verification of the cardiology-feed pipeline core (fetch_cardiology_pubmed.py,
summarise_and_email.py) against its natural-language specification.

The Python code is shallowly embedded: pure functions become Lean functions on
`List`-based data; the persisted-state ledgers become explicit values; the
effectful tails of the two `main` entry points become explicit operation
traces with an exception-style failure semantics.
-/

namespace Cardio

/-- Shape of one article record, as produced by `parse_article` /
`parse_articles` in the source (string fields, list of publication-type tags,
category string assigned by the classifier). -/
structure Article where
  pmid : String
  title : String
  journal : String
  pub_date : String
  url : String
  abstract : String
  publication_types : List String
  category : String
  authors : List String
deriving DecidableEq, Repr

/-- PRIORITY_PUB_TYPES from fetch_cardiology_pubmed.py (a Python set, embedded
as a list used only through membership). -/
def PRIORITY_PUB_TYPES : List String :=
  ["Clinical Trial", "Randomized Controlled Trial", "Multicenter Study",
   "Meta-Analysis", "Systematic Review", "Observational Study",
   "Comparative Study", "Review"]

/-- EXCLUDE_PUB_TYPES from fetch_cardiology_pubmed.py. -/
def EXCLUDE_PUB_TYPES : List String :=
  ["Editorial", "Comment", "Letter", "News", "Published Erratum",
   "Retraction of Publication", "Retracted Publication"]

/-- Embedding of Python str.strip(): drop whitespace from both ends
(structurally recursive over the character data, so it evaluates in the
kernel). -/
def pyStrip (s : String) : String :=
  ⟨((s.data.dropWhile Char.isWhitespace).reverse.dropWhile Char.isWhitespace).reverse⟩

/-- Embedding of Python str.lower(): lowercase every character. -/
def pyLower (s : String) : String :=
  ⟨s.data.map Char.toLower⟩

/-- classify_article from fetch_cardiology_pubmed.py lines 197-214.
Python tests `pub_types_set & EXCLUDE_PUB_TYPES` (nonempty set intersection),
embedded as an existence check over the list. -/
def classify_article (pub_types : List String) (has_abstract : Bool) : String :=
  if pub_types.any (fun t => EXCLUDE_PUB_TYPES.contains t) then "excluded"
  else if pub_types.any (fun t => PRIORITY_PUB_TYPES.contains t) then
    (if has_abstract then "priority" else "priority_no_abstract")
  else if has_abstract then "standard"
  else "low_priority"

/-- Result record of filter_and_categorize (the `categorized` dict of four
lists). -/
structure Categorized where
  priority : List Article
  standard : List Article
  needs_review : List Article
  excluded : List Article
deriving DecidableEq, Repr

/-- filter_and_categorize from fetch_cardiology_pubmed.py lines 296-325.
The Python loop appends each article to exactly one of the four lists in
input order; the front-to-back recursion below produces the same lists. -/
def filter_and_categorize (articles : List Article) (include_no_abstract : Bool) :
    Categorized :=
  match articles with
  | [] => ⟨[], [], [], []⟩
  | a :: rest =>
    let r := filter_and_categorize rest include_no_abstract
    if a.category == "excluded" then
      { r with excluded := a :: r.excluded }
    else if a.category == "priority" then
      { r with priority := a :: r.priority }
    else if a.category == "priority_no_abstract" then
      (if include_no_abstract then { r with needs_review := a :: r.needs_review }
       else { r with excluded := a :: r.excluded })
    else if a.category == "standard" then
      { r with standard := a :: r.standard }
    else
      (if include_no_abstract then { r with needs_review := a :: r.needs_review }
       else { r with excluded := a :: r.excluded })

/-- The digest set built by main (fetch_cardiology_pubmed.py line 499):
`digest_articles = categorized["priority"] + categorized["standard"]`. -/
def digest_of (articles : List Article) (include_no_abstract : Bool) : List Article :=
  (filter_and_categorize articles include_no_abstract).priority
    ++ (filter_and_categorize articles include_no_abstract).standard

/-- dedupe_articles_by_pmid from fetch_cardiology_pubmed.py lines 356-370.
The seen set is embedded as a list used only through membership. -/
def dedupe_articles_by_pmid (articles : List Article) (seen_pmids : List String) :
    List Article × Nat :=
  match articles with
  | [] => ([], 0)
  | a :: rest =>
    let r := dedupe_articles_by_pmid rest seen_pmids
    let pmid := pyStrip a.pmid
    if pmid == "" then (a :: r.1, r.2)
    else if seen_pmids.contains pmid then (r.1, r.2 + 1)
    else (a :: r.1, r.2)

/-- PRIORITY_STUDY_TYPES from summarise_and_email.py lines 273-282. -/
def PRIORITY_STUDY_TYPES : List String :=
  ["randomized controlled trial", "randomised controlled trial",
   "clinical trial", "meta-analysis", "systematic review",
   "multicenter study", "observational study", "cohort study"]

/-- The fallback phrase list of is_priority_study (summarise_and_email.py
lines 314-318). -/
def priority_phrases : List String :=
  ["randomized", "randomised", "meta-analysis", "meta analysis",
   "systematic review", "cohort study", "multicenter", "multicentre",
   "registry", "nationwide", "population-based"]

/-- Occurrence test of one character sequence inside another: the needle is
a prefix of some suffix of the hay. -/
def containsSub (needle : List Char) : List Char → Bool
  | [] => needle.isPrefixOf []
  | c :: rest => needle.isPrefixOf (c :: rest) || containsSub needle rest

/-- Embedding of the Python substring test `needle in hay`: the needle's
character data occurs as a contiguous run inside the hay's. -/
def strContains (hay needle : String) : Bool :=
  containsSub needle.data hay.data

/-- is_priority_study from summarise_and_email.py lines 304-319: structured
publication-type tags first (lowercased and trimmed, intersected with
PRIORITY_STUDY_TYPES), then a text-phrase fallback over title+abstract. -/
def is_priority_study (a : Article) : Bool :=
  let pub_types_lower := a.publication_types.map (fun pt => pyStrip (pyLower pt))
  if pub_types_lower.any (fun t => PRIORITY_STUDY_TYPES.contains t) then true
  else
    let text_lower := pyLower (a.title ++ " " ++ a.abstract)
    priority_phrases.any (fun phrase => strContains text_lower phrase)

/-- select_for_summary from summarise_and_email.py lines 322-351, with the
source's local lists kept as `let`s (list comprehensions become filters). -/
def select_for_summary (articles : List Article) (max_summaries : Nat)
    (min_abstract_chars : Nat := 200) : List Article × List Article :=
  let priority_studies := articles.filter (fun a => is_priority_study a)
  let non_priority_studies := articles.filter (fun a => !(is_priority_study a))
  let other_priority := non_priority_studies.filter (fun a => a.category == "priority")
  let standard := non_priority_studies.filter (fun a => a.category == "standard")
  let ordered := priority_studies ++ other_priority ++ standard
  let eligible := ordered.filter (fun a => min_abstract_chars ≤ a.abstract.length)
  let to_sum := eligible.take max_summaries
  let to_sum_pmids := to_sum.map (fun a => a.pmid)
  let headlines := ordered.filter (fun a => !(to_sum_pmids.contains a.pmid))
  (to_sum, headlines)

/-- Spec-side ranking, written from the spec's words (§4.5 steps 1-3): the
priority-study partition, then the remaining records with category
`priority`, then those with category `standard`, each order-preserving. -/
def ranking_spec (articles : List Article) : List Article :=
  articles.filter (fun a => is_priority_study a)
    ++ articles.filter (fun a => !(is_priority_study a) && a.category == "priority")
    ++ articles.filter (fun a => !(is_priority_study a) && a.category == "standard")

/-- Spec-side selection, written from the spec's words (§4.5 steps 4-5):
enrich is the first `max` records of the ranking filtered to abstract length
at least `min`; remainder is every record of the full unfiltered ranking
whose identifier is not in enrich's identifier set. -/
def select_spec (articles : List Article) (max_summaries min_abstract_chars : Nat) :
    List Article × List Article :=
  let ranking := ranking_spec articles
  let enrich := (ranking.filter (fun a => min_abstract_chars ≤ a.abstract.length)).take
    max_summaries
  (enrich, ranking.filter (fun a => !((enrich.map (fun b => b.pmid)).contains a.pmid)))

-- -------------------------
-- Ledger load (state files)
-- -------------------------

/-- Shape of the ledger-relevant part of a parsed state file: either the
pmids field fails the `isinstance(pmids, list)` check, or it is a list of
entries (each entry embedded as the string `str(p)` produces). A missing
field defaults to `pmidList []` (Python `data.get(..., [])`). -/
inductive LedgerField where
  | notList
  | pmidList (entries : List String)
deriving DecidableEq, Repr

/-- Outcome of reading a state file: the file is absent, reading or JSON
parsing raised (caught by `except Exception`), or it parsed to a dict whose
relevant field is `f`. This models the file system / JSON boundary of
load_seen_pmids and load_sent_pmids. -/
inductive LedgerRead where
  | absent
  | readError
  | ok (f : LedgerField)
deriving DecidableEq, Repr

/-- load_seen_pmids from fetch_cardiology_pubmed.py lines 331-343: empty set
when the file is absent, unreadable or mis-shaped; otherwise the stripped,
nonempty entries (the Python set is embedded as a list used through
membership). -/
def load_seen_pmids : LedgerRead → List String
  | .absent => []
  | .readError => []
  | .ok .notList => []
  | .ok (.pmidList entries) =>
    (entries.map (fun p => pyStrip p)).filter (fun p => p != "")

/-- load_sent_pmids from summarise_and_email.py lines 65-75 (same structure
as load_seen_pmids, over the sent-state file). -/
def load_sent_pmids : LedgerRead → List String
  | .absent => []
  | .readError => []
  | .ok .notList => []
  | .ok (.pmidList entries) =>
    (entries.map (fun p => pyStrip p)).filter (fun p => p != "")

-- -------------------------
-- Ledger save (file-system operation traces)
-- -------------------------

/-- Content of a ledger state file: `truncated` is the state right after
`open(path, "w")` has truncated the file and before the dump completed;
`ledgerData` is a complete serialized payload
`{updated_at: ..., <concern>_pmids: ...}`. -/
inductive FileData where
  | truncated
  | ledgerData (updated_at : String) (pmids : List String)
deriving DecidableEq, Repr

/-- File-system operations performed by the save helpers. -/
inductive FsOp where
  | mkdirParents (dir : String)
  | openTrunc (path : String)
  | writeData (path : String) (d : FileData)
  | rename (src : String) (dst : String)
deriving DecidableEq, Repr

/-- A file system as a map from path to content (`none` = no such file). -/
def FS : Type := String → Option FileData

def applyOp (fs : FS) : FsOp → FS
  | .mkdirParents _ => fs
  | .openTrunc p => fun q => if q = p then some .truncated else fs q
  | .writeData p d => fun q => if q = p then some d else fs q
  | .rename src dst => fun q =>
      if q = dst then fs src else if q = src then none else fs q

/-- Run a prefix of an operation trace (a crash after `k` operations is
`runOps fs (ops.take k)`). -/
def runOps (fs : FS) : List FsOp → FS
  | [] => fs
  | op :: rest => runOps (applyOp fs op) rest

/-- Parent directory of a path (for `path.parent.mkdir`). -/
def parentDir (p : String) : String :=
  String.intercalate "/" ((p.splitOn "/").dropLast)

/-- Insertion step of the sort embedding Python `sorted`. -/
def insertSorted (s : String) : List String → List String
  | [] => [s]
  | t :: ts => if s ≤ t then s :: t :: ts else t :: insertSorted s ts

/-- Sorting used to embed Python `sorted(set_of_strings)`: sort the
deduplicated entries. -/
def pythonSortedSet (l : List String) : List String :=
  l.dedup.foldr insertSorted []

/-- Operation trace of save_seen_pmids (fetch_cardiology_pubmed.py lines
346-353): mkdir the parent, then `open(state_path, "w")` (truncating the
target in place) and `json.dump` the full payload with the updated timestamp
and the sorted pmid set. -/
def save_seen_pmids_ops (state_path : String) (now : String)
    (seen_pmids : List String) : List FsOp :=
  [.mkdirParents (parentDir state_path),
   .openTrunc state_path,
   .writeData state_path (.ledgerData now (pythonSortedSet seen_pmids))]

/-- Operation trace of save_sent_pmids (summarise_and_email.py lines 78-83,
via write_json lines 59-62): the same mkdir-then-truncate-then-dump shape on
the sent-state path. -/
def save_sent_pmids_ops (state_path : String) (now : String)
    (sent_pmids : List String) : List FsOp :=
  [.mkdirParents (parentDir state_path),
   .openTrunc state_path,
   .writeData state_path (.ledgerData now (pythonSortedSet sent_pmids))]

-- -------------------------
-- Orchestrator effect order (commit protocol)
-- -------------------------

/-- The side effects each ledger is meant to gate. -/
inductive SideEffect where
  | writeDatedArtifact
  | writeLatestArtifact
  | sendEmail (recipient : Nat)
deriving DecidableEq, Repr

/-- One effectful step of a `main` run: a ledger save or a gated side
effect. -/
inductive RunStep where
  | saveSeenLedger
  | saveSentLedger
  | perform (e : SideEffect)
deriving DecidableEq, Repr

/-- Effectful steps of fetch_cardiology_pubmed.py main on the default path,
in source order: save_seen_pmids (line 513), then the dated archive write
(line 563), then the stable latest write (line 567). -/
def fetch_main_steps : List RunStep :=
  [.saveSeenLedger,
   .perform .writeDatedArtifact,
   .perform .writeLatestArtifact]

/-- Effectful steps of summarise_and_email.py main on the default send path:
one send_gmail_html call per recipient (lines 903-916), then save_sent_pmids
(line 926). -/
def email_main_steps (recipients : Nat) : List RunStep :=
  ((List.range recipients).map (fun i => RunStep.perform (.sendEmail i)))
    ++ [.saveSentLedger]

/-- Execute a straight-line run with Python exception semantics: a failing
side effect raises, so execution stops there and nothing after it runs.
Returns the list of steps that completed. -/
def executedSteps (fails : SideEffect → Bool) : List RunStep → List RunStep
  | [] => []
  | .perform e :: rest =>
      if fails e then [] else .perform e :: executedSteps fails rest
  | .saveSeenLedger :: rest => .saveSeenLedger :: executedSteps fails rest
  | .saveSentLedger :: rest => .saveSentLedger :: executedSteps fails rest

-- -------------------------
-- Email pipeline fragment (enrichment failures and the sent commit)
-- -------------------------

/-- Summary shape produced by summarise_one (the three-field JSON schema). -/
structure Summary where
  study_type : String
  finding : String
  so_what : String
deriving DecidableEq, Repr

/-- The summarisation loop of summarise_and_email.py main lines 805-812:
summarise_one is an external call, embedded as `ok : Article → Option
Summary` (`none` = the call raised); the try/except appends on success and
continues on failure. -/
def summariesOf (ok : Article → Option Summary) (to_sum : List Article) :
    List (Article × Summary) :=
  to_sum.filterMap (fun a => (ok a).map (fun s => (a, s)))

/-- The unsent filter of summarise_and_email.py main lines 777-784: keep
only articles with a truthy (nonempty) pmid, and outside test mode also not
in the sent ledger. -/
def compute_unsent (test_mode : Bool) (articles : List Article)
    (sent_pmids : List String) : List Article :=
  if test_mode then articles.filter (fun a => a.pmid != "")
  else articles.filter (fun a => a.pmid != "" && !(sent_pmids.contains a.pmid))

/-- The default-path tail of summarise_and_email.py main from selection to
the sent-ledger commit (lines 793-816 and 921-926), with every email send
succeeding: select, run the summarisation loop, return early (`none`, no
commit) when there are no summaries and no headlines, otherwise send and
commit every nonempty pmid of `unsent` into the sent ledger (the Python set
is embedded as a membership list). -/
def email_pipeline_commit (ok : Article → Option Summary)
    (sent_pmids : List String) (unsent : List Article) (max_summaries : Nat) :
    Option (List String) :=
  let selected := select_for_summary unsent max_summaries
  let to_sum := selected.1
  let headlines_only := selected.2
  let summaries := summariesOf ok to_sum
  if summaries.isEmpty && headlines_only.isEmpty then none
  else some (sent_pmids ++ (unsent.map (fun a => a.pmid)).filter (fun p => p != ""))

-- -------------------------
-- Shared helper lemmas
-- -------------------------

/-- Closed form of the dedupe loop: kept is the order-preserving filter to
records whose trimmed pmid is empty or not in the ledger; the removed count
is the number of the other records. -/
lemma dedupe_eq (articles : List Article) (seen : List String) :
    dedupe_articles_by_pmid articles seen =
      (articles.filter (fun a => (pyStrip a.pmid) == "" || !(seen.contains (pyStrip a.pmid))),
       (articles.filter (fun a => (pyStrip a.pmid) != "" && seen.contains (pyStrip a.pmid))).length) := by
  induction articles with
  | nil => rfl
  | cons a rest ih =>
    by_cases htrim : (pyStrip a.pmid) = ""
    · simp [dedupe_articles_by_pmid, ih, List.filter_cons, htrim]
    · by_cases hmem : (pyStrip a.pmid) ∈ seen
      · simp [dedupe_articles_by_pmid, ih, List.filter_cons, htrim, hmem]
      · simp [dedupe_articles_by_pmid, ih, List.filter_cons, htrim, hmem]

/-- Dedupe against an empty ledger keeps everything and removes nothing. -/
lemma dedupe_nil (articles : List Article) :
    dedupe_articles_by_pmid articles [] = (articles, 0) := by
  simp [dedupe_eq, List.contains]

-- -------------------------
-- Claim theorems
-- -------------------------

/-- Sample record with identifier 111 for the dedupe scenario. -/
def art111 : Article := ⟨"111", "A", "J", "2026", "", "x", [], "standard", []⟩

/-- Sample record with identifier 222 for the dedupe scenario. -/
def art222 : Article := ⟨"222", "B", "J", "2026", "", "x", [], "standard", []⟩

/-- Claim C6: for every (publication-type set, has_abstract) input,
classify_article returns exactly one of the five categories, applying rules
in priority order: excluded wins over everything (including priority tags),
then the priority set split on abstract presence, then standard on abstract
presence, else low_priority. -/
theorem classify_article_total_and_priority_ordered (pub_types : List String)
    (has_abstract : Bool) :
    classify_article pub_types has_abstract ∈
      ["excluded", "priority", "priority_no_abstract", "standard", "low_priority"] ∧
    (pub_types.any (fun t => EXCLUDE_PUB_TYPES.contains t) = true →
      classify_article pub_types has_abstract = "excluded") ∧
    (pub_types.any (fun t => EXCLUDE_PUB_TYPES.contains t) = false →
      pub_types.any (fun t => PRIORITY_PUB_TYPES.contains t) = true →
      classify_article pub_types has_abstract =
        (if has_abstract then "priority" else "priority_no_abstract")) ∧
    (pub_types.any (fun t => EXCLUDE_PUB_TYPES.contains t) = false →
      pub_types.any (fun t => PRIORITY_PUB_TYPES.contains t) = false →
      classify_article pub_types has_abstract =
        (if has_abstract then "standard" else "low_priority")) := by
  unfold classify_article
  cases h1 : pub_types.any (fun t => EXCLUDE_PUB_TYPES.contains t) <;>
    cases h2 : pub_types.any (fun t => PRIORITY_PUB_TYPES.contains t) <;>
      cases has_abstract <;> simp

/-- Witness for C6: a record tagged both Editorial (EXCLUDE) and Review
(PRIORITY) classifies as excluded — the excluded tag wins. -/
theorem classify_article_total_and_priority_ordered_witness :
    (["Editorial", "Review"].any (fun t => EXCLUDE_PUB_TYPES.contains t) = true) ∧
    classify_article ["Editorial", "Review"] true = "excluded" :=
  ⟨by decide,
   (classify_article_total_and_priority_ordered ["Editorial", "Review"] true).2.1
     (by decide)⟩

/-- Claim C7: dedupe keeps every record with an empty (after trimming)
identifier, drops and counts every record whose identifier is in the
ledger, preserves input order in kept (a filter of the input), takes the
ledger as an unmodified input value, and on ledger 111 with inputs 111 and
222 returns kept = [222] with removed_count = 1. -/
theorem dedupe_policy_and_example (articles : List Article) (seen : List String) :
    (dedupe_articles_by_pmid articles seen).1 =
      articles.filter (fun a => (pyStrip a.pmid) == "" || !(seen.contains (pyStrip a.pmid))) ∧
    (dedupe_articles_by_pmid articles seen).2 =
      (articles.filter (fun a => (pyStrip a.pmid) != "" && seen.contains (pyStrip a.pmid))).length ∧
    dedupe_articles_by_pmid [art111, art222] ["111"] = ([art222], 1) := by
  refine ⟨?_, ?_, by decide⟩ <;> rw [dedupe_eq]

/-- Claim C8: ledger load returns the empty set when the state file is
absent, or reading/parsing raised, or the pmids field is not a list; and
dedupe over a corrupted (or absent) ledger file behaves exactly like dedupe
over an empty ledger: kept equals the input and removed_count is 0. -/
theorem ledger_load_fail_open (articles : List Article) :
    load_seen_pmids .absent = [] ∧
    load_seen_pmids .readError = [] ∧
    load_seen_pmids (.ok .notList) = [] ∧
    load_sent_pmids .absent = [] ∧
    load_sent_pmids .readError = [] ∧
    load_sent_pmids (.ok .notList) = [] ∧
    dedupe_articles_by_pmid articles (load_seen_pmids .readError) = (articles, 0) ∧
    dedupe_articles_by_pmid articles (load_seen_pmids .absent) = (articles, 0) ∧
    dedupe_articles_by_pmid articles (load_seen_pmids .readError) =
      dedupe_articles_by_pmid articles [] :=
  ⟨rfl, rfl, rfl, rfl, rfl, rfl, dedupe_nil articles, dedupe_nil articles, rfl⟩

/-- Conjunction order inside a filter predicate is immaterial. -/
lemma filter_and_comm (p q : Article → Bool) (l : List Article) :
    l.filter (fun a => p a && q a) = l.filter (fun a => q a && p a) :=
  List.filter_congr (fun a _ => by rw [Bool.and_comm])

/-- The source's selection equals the spec-side selection. -/
lemma select_eq (articles : List Article) (m n : Nat) :
    select_for_summary articles m n = select_spec articles m n := by
  simp only [select_for_summary, select_spec, ranking_spec, List.filter_filter]
  rw [filter_and_comm (fun a => a.category == "priority") (fun a => !(is_priority_study a)),
    filter_and_comm (fun a => a.category == "standard") (fun a => !(is_priority_study a))]

/-- Every record of the ranking comes from the input bucket. -/
lemma ranking_spec_subset (l : List Article) : ∀ a ∈ ranking_spec l, a ∈ l := by
  intro a ha
  simp only [ranking_spec, List.mem_append, List.mem_filter] at ha
  tauto

/-- The enrich output draws only from the input bucket. -/
lemma select_fst_subset (l : List Article) (m n : Nat) :
    ∀ a ∈ (select_for_summary l m n).1, a ∈ l := by
  intro a ha
  rw [select_eq] at ha
  simp only [select_spec] at ha
  exact ranking_spec_subset l a ((List.filter_sublist _).subset ((List.take_sublist _ _).subset ha))

/-- The remainder output draws only from the input bucket. -/
lemma select_snd_subset (l : List Article) (m n : Nat) :
    ∀ a ∈ (select_for_summary l m n).2, a ∈ l := by
  intro a ha
  rw [select_eq] at ha
  simp only [select_spec] at ha
  exact ranking_spec_subset l a ((List.filter_sublist _).subset ha)

/-- Claim C9: the selection ranking is exactly the priority-study partition,
then the remaining category-priority records, then the category-standard
records, each order-preserving (select_for_summary computes select_spec);
enrich is the first max records of the ranking after the abstract-length
filter, the remainder is the full unfiltered ranking minus the records whose
identifier is in enrich's identifier set, and a short-abstract record is
never dropped by the length filter: whenever its identifier is not among the
enrich picks it lands in the remainder. -/
theorem selection_ranking_and_fallthrough (articles : List Article) (m n : Nat) :
    select_for_summary articles m n = select_spec articles m n ∧
    (select_for_summary articles m n).1 =
      ((ranking_spec articles).filter (fun a => n ≤ a.abstract.length)).take m ∧
    (select_for_summary articles m n).2 =
      (ranking_spec articles).filter
        (fun a => !(((select_for_summary articles m n).1.map (fun b => b.pmid)).contains a.pmid)) ∧
    (∀ a ∈ ranking_spec articles,
      a.pmid ∉ (select_for_summary articles m n).1.map (fun b => b.pmid) →
      a ∈ (select_for_summary articles m n).2) := by
  refine ⟨select_eq articles m n, ?_, ?_, ?_⟩
  · rw [select_eq]; simp [select_spec]
  · rw [select_eq]; simp [select_spec]
  · intro a ha hnot
    rw [select_eq] at hnot ⊢
    simp only [select_spec, List.mem_filter] at hnot ⊢
    refine ⟨ha, ?_⟩
    simpa using hnot

/-- Witness for C9: with max_enrich 0 nothing is picked, and the (short
abstract) record falls through to the remainder. -/
theorem selection_ranking_and_fallthrough_witness :
    art111 ∈ ranking_spec [art111] ∧
    art111.pmid ∉ (select_for_summary [art111] 0 200).1.map (fun b => b.pmid) ∧
    art111 ∈ (select_for_summary [art111] 0 200).2 :=
  ⟨by decide, by decide,
   (selection_ranking_and_fallthrough [art111] 0 200).2.2.2 art111 (by decide) (by decide)⟩

/-- Claim C10: the delivery pipeline's unsent list keeps only articles with
a nonempty pmid, so every article reaching selection — summarised (enrich)
or listed (headlines) — has a nonempty identifier. -/
theorem unsent_filters_empty_pmids (test_mode : Bool) (articles : List Article)
    (sent : List String) (m n : Nat) :
    (∀ a ∈ compute_unsent test_mode articles sent, a.pmid ≠ "") ∧
    (∀ a ∈ (select_for_summary (compute_unsent test_mode articles sent) m n).1,
      a.pmid ≠ "") ∧
    (∀ a ∈ (select_for_summary (compute_unsent test_mode articles sent) m n).2,
      a.pmid ≠ "") := by
  have hbase : ∀ a ∈ compute_unsent test_mode articles sent, a.pmid ≠ "" := by
    intro a ha
    cases test_mode <;> simp [compute_unsent, List.mem_filter] at ha <;> tauto
  exact ⟨hbase,
    fun a ha => hbase a (select_fst_subset _ m n a ha),
    fun a ha => hbase a (select_snd_subset _ m n a ha)⟩

/-- Witness for C10: a nonempty-pmid article surviving the unsent filter has
a nonempty pmid. -/
theorem unsent_filters_empty_pmids_witness :
    art222 ∈ compute_unsent false [art222] [] ∧ art222.pmid ≠ "" :=
  ⟨by decide, (unsent_filters_empty_pmids false [art222] [] 5 200).1 art222 (by decide)⟩

/-- Closed form of the router: each bucket is a filter of the input by its
category predicate (input-order-preserving within the bucket). -/
lemma fc_eq (articles : List Article) (inc : Bool) :
    filter_and_categorize articles inc =
      ⟨articles.filter (fun a => a.category == "priority"),
       articles.filter (fun a => a.category == "standard"),
       if inc then
         articles.filter (fun a => !(a.category == "excluded") && !(a.category == "priority")
           && !(a.category == "standard"))
       else [],
       if inc then articles.filter (fun a => a.category == "excluded")
       else articles.filter
         (fun a => !(a.category == "priority") && !(a.category == "standard"))⟩ := by
  induction articles with
  | nil => cases inc <;> rfl
  | cons a rest ih =>
    by_cases h1 : a.category = "excluded"
    · cases inc <;> simp [filter_and_categorize, ih, List.filter_cons, h1]
    · by_cases h2 : a.category = "priority"
      · cases inc <;> simp [filter_and_categorize, ih, List.filter_cons, h1, h2]
      · by_cases h3 : a.category = "priority_no_abstract"
        · cases inc <;> simp [filter_and_categorize, ih, List.filter_cons, h1, h2, h3]
        · by_cases h4 : a.category = "standard"
          · cases inc <;> simp [filter_and_categorize, ih, List.filter_cons, h1, h2, h3, h4]
          · cases inc <;> simp [filter_and_categorize, ih, List.filter_cons, h1, h2, h3, h4]

/-- Count of an element in a filtered list, as a conditional. -/
lemma count_filter_eq (p : Article → Bool) (a : Article) (l : List Article) :
    List.count a (l.filter p) = if p a then List.count a l else 0 := by
  cases hp : p a
  · simp only [Bool.false_eq_true, if_false]
    refine List.count_eq_zero.mpr (fun hm => ?_)
    have := (List.mem_filter.mp hm).2
    rw [hp] at this
    exact Bool.false_ne_true this
  · simp only [if_true]
    exact List.count_filter hp

/-- The four router buckets together are a permutation of the input: nothing
is dropped and nothing is duplicated. -/
lemma fc_perm (articles : List Article) (inc : Bool) :
    ((filter_and_categorize articles inc).priority
      ++ (filter_and_categorize articles inc).standard
      ++ (filter_and_categorize articles inc).needs_review
      ++ (filter_and_categorize articles inc).excluded).Perm articles := by
  rw [fc_eq]
  refine List.perm_iff_count.mpr (fun a => ?_)
  cases inc <;>
    simp only [if_true, Bool.false_eq_true, if_false, List.count_append, count_filter_eq,
      List.count_nil] <;>
    by_cases h1 : a.category = "priority" <;>
    by_cases h2 : a.category = "standard" <;>
    by_cases h3 : a.category = "excluded" <;>
    simp_all

/-- Sample priority-category record used in the routing counterexample. -/
def aPri : Article := ⟨"333", "P", "J", "2026", "", "x", [], "priority", []⟩

/-- Counterexample to claim C5 as stated: with a standard-category record
before a priority-category record, the digest bucket is the priority record
followed by the standard one, not the input-order subsequence of
priority-and-standard records, so the digest is not order-preserving
relative to input order. -/
theorem digest_not_input_ordered :
    digest_of [art111, aPri] false = [aPri, art111] ∧
    [art111, aPri].filter
      (fun a => a.category == "priority" || a.category == "standard") = [art111, aPri] ∧
    digest_of [art111, aPri] false ≠
      [art111, aPri].filter
        (fun a => a.category == "priority" || a.category == "standard") :=
  ⟨by decide, by decide, by decide⟩

/-- Claim C5 (amended): routing partitions the input into the three buckets
(digest, needs_review, excluded) with no record appearing twice and none
dropped; excluded-category records go to excluded; priority and standard
categories go to digest; priority_no_abstract and low_priority (and any
other unrecognised category) go to needs_review when include_low_quality is
true and to excluded otherwise; and the digest bucket is the
priority-category records followed by the standard-category records, each
half order-preserving relative to input order (not globally input-ordered). -/
theorem route_partitions_input (articles : List Article) (inc : Bool) :
    (filter_and_categorize articles inc).priority =
      articles.filter (fun a => a.category == "priority") ∧
    (filter_and_categorize articles inc).standard =
      articles.filter (fun a => a.category == "standard") ∧
    (filter_and_categorize articles inc).needs_review =
      (if inc then
        articles.filter (fun a => !(a.category == "excluded") && !(a.category == "priority")
          && !(a.category == "standard"))
       else []) ∧
    (filter_and_categorize articles inc).excluded =
      (if inc then articles.filter (fun a => a.category == "excluded")
       else articles.filter
         (fun a => !(a.category == "priority") && !(a.category == "standard"))) ∧
    digest_of articles inc =
      articles.filter (fun a => a.category == "priority")
        ++ articles.filter (fun a => a.category == "standard") ∧
    (digest_of articles inc ++ (filter_and_categorize articles inc).needs_review
      ++ (filter_and_categorize articles inc).excluded).Perm articles := by
  have h := fc_eq articles inc
  refine ⟨by rw [h], by rw [h], by rw [h], by rw [h], ?_, ?_⟩
  · unfold digest_of; rw [h]
  · have hp := fc_perm articles inc
    unfold digest_of
    simpa [List.append_assoc] using hp

/-- Filtering a nodup list down to the members of one of its sublists
recovers that sublist. -/
lemma nodup_filter_mem_of_sublist {l s : List Article} (hs : s.Sublist l) :
    l.Nodup → l.filter (fun a => decide (a ∈ s)) = s := by
  induction hs with
  | slnil => intro _; rfl
  | @cons l₁ l₂ b h ih =>
    intro hn
    have hn2 := List.nodup_cons.mp hn
    have hb : (decide (b ∈ l₁) : Bool) = false :=
      decide_eq_false_iff_not.mpr (fun hmem => hn2.1 (h.subset hmem))
    rw [List.filter_cons, if_neg (by simp [hb])]
    exact ih hn2.2
  | @cons₂ l₁ l₂ b h ih =>
    intro hn
    have hn2 := List.nodup_cons.mp hn
    have hcong : l₂.filter (fun a => decide (a ∈ b :: l₁))
        = l₂.filter (fun a => decide (a ∈ l₁)) := by
      refine List.filter_congr (fun x hx => ?_)
      have hxb : x ≠ b := fun he => hn2.1 (he ▸ hx)
      simp [List.mem_cons, hxb]
    rw [List.filter_cons, if_pos (by simp), hcong, ih hn2.2]

/-- First empty-identifier record for the selection counterexample. -/
def eNoId1 : Article := ⟨"", "first no-id record", "J", "2026", "", "aaaa", [], "standard", []⟩

/-- Second empty-identifier record for the selection counterexample. -/
def eNoId2 : Article := ⟨"", "second no-id record", "J", "2026", "", "bbbb", [], "standard", []⟩

/-- Counterexample to claim C4 as stated: two distinct empty-identifier
records; one is selected for enrich, and the identifier-based remainder test
then drops the other from both outputs, so empty-identifier records are
matched by identifier (merged), not by object identity, and the union does
not reconstruct the input. -/
theorem select_merges_empty_ids :
    (select_for_summary [eNoId1, eNoId2] 1 1).1 = [eNoId1] ∧
    (select_for_summary [eNoId1, eNoId2] 1 1).2 = [] ∧
    eNoId2 ∉ (select_for_summary [eNoId1, eNoId2] 1 1).1 ∧
    eNoId2 ∉ (select_for_summary [eNoId1, eNoId2] 1 1).2 ∧
    eNoId1 ≠ eNoId2 :=
  ⟨by decide, by decide, by decide, by decide, by decide⟩

/-- Claim C4 (amended): enrich is bounded by max_enrich and disjoint from
the remainder always; and when every record is priority-category,
standard-category or a priority study, and the identifiers are pairwise
distinct (in particular at most one record has the empty identifier), the
two outputs together are a permutation of the input bucket. Remainder
membership is decided by identifier, so with duplicate (e.g. several empty)
identifiers, records sharing an identifier with an enrich pick are dropped. -/
theorem select_bounded_disjoint_union (articles : List Article) (m n : Nat) :
    (select_for_summary articles m n).1.length ≤ m ∧
    (∀ a ∈ (select_for_summary articles m n).1,
      a ∉ (select_for_summary articles m n).2) ∧
    ((∀ a ∈ articles, a.category = "priority" ∨ a.category = "standard"
        ∨ is_priority_study a = true) →
      (articles.map (fun a => a.pmid)).Nodup →
      ((select_for_summary articles m n).1
        ++ (select_for_summary articles m n).2).Perm articles) := by
  have hsel := select_eq articles m n
  refine ⟨?_, ?_, ?_⟩
  · rw [hsel]
    simp only [select_spec]
    exact List.length_take_le m _
  · intro a ha hcontra
    rw [hsel] at ha hcontra
    simp only [select_spec, List.mem_filter] at hcontra
    have := hcontra.2
    simp only [Bool.not_eq_true', List.elem_eq_mem, decide_eq_false_iff_not] at this
    exact this (List.mem_map_of_mem _ ha)
  · intro hcat hnodup
    -- Step A: the ranking is a permutation of the input.
    have hcong2 : articles.filter
        (fun a => !(a.category == "priority") && !(is_priority_study a))
        = articles.filter
          (fun a => !(is_priority_study a) && (a.category == "standard")) := by
      refine List.filter_congr (fun x hx => ?_)
      rcases hcat x hx with hc | hc | hc
      · simp [hc]
      · simp [hc]
      · simp [hc]
    have h2 := List.filter_append_perm (fun a => a.category == "priority")
      (articles.filter (fun a => !(is_priority_study a)))
    rw [List.filter_filter, List.filter_filter,
      filter_and_comm (fun a => a.category == "priority")
        (fun a => !(is_priority_study a)), hcong2] at h2
    have h1 := List.filter_append_perm (fun a => is_priority_study a) articles
    have hA : (ranking_spec articles).Perm articles := by
      unfold ranking_spec
      rw [List.append_assoc]
      exact (List.Perm.append_left _ h2).trans h1
    -- Step B: enrich ++ remainder is a permutation of the ranking.
    have hanodup : articles.Nodup := List.Nodup.of_map _ hnodup
    have hRnodup : (ranking_spec articles).Nodup := hA.nodup_iff.mpr hanodup
    have hinj := List.inj_on_of_nodup_map hnodup
    rw [hsel]
    simp only [select_spec]
    set R := ranking_spec articles with hR
    set to_sum := (R.filter (fun a => decide (n ≤ a.abstract.length))).take m with hts
    have hsub : to_sum.Sublist R := (List.take_sublist m _).trans (List.filter_sublist R)
    have hfe : R.filter (fun a => decide (a ∈ to_sum)) = to_sum :=
      nodup_filter_mem_of_sublist hsub hRnodup
    have hcong3 : R.filter (fun a => !((to_sum.map (fun b => b.pmid)).contains a.pmid))
        = R.filter (fun a => !(decide (a ∈ to_sum))) := by
      refine List.filter_congr (fun x hx => ?_)
      have hxa : x ∈ articles := ranking_spec_subset articles x hx
      simp only [List.elem_eq_mem]
      refine congrArg Bool.not (decide_eq_decide.mpr ⟨fun hmem => ?_, fun hmem =>
        List.mem_map_of_mem _ hmem⟩)
      rcases List.mem_map.mp hmem with ⟨b, hb, hbeq⟩
      have hba : b ∈ articles := ranking_spec_subset articles b (hsub.subset hb)
      exact (hinj hxa hba hbeq.symm) ▸ hb
    rw [hcong3]
    refine List.Perm.trans ?_ hA
    have hfp := List.filter_append_perm (fun a => decide (a ∈ to_sum)) R
    rw [hfe] at hfp
    exact hfp

/-- Witness for C4: two records with distinct nonempty identifiers — one a
priority study with a long abstract, one standard with a short abstract —
split one into enrich, one into the remainder, reconstructing the input. -/
theorem select_bounded_disjoint_union_witness :
    (∀ a ∈ [art111, aPri], a.category = "priority" ∨ a.category = "standard"
      ∨ is_priority_study a = true) ∧
    ([art111, aPri].map (fun a => a.pmid)).Nodup ∧
    ((select_for_summary [art111, aPri] 1 1).1
      ++ (select_for_summary [art111, aPri] 1 1).2).Perm [art111, aPri] :=
  ⟨by decide, by decide,
   (select_bounded_disjoint_union [art111, aPri] 1 1).2.2 (by decide) (by decide)⟩

/-- Abstract of 200 characters (the default min_abstract_chars threshold). -/
def longAbstract : String := String.mk (List.replicate 200 'a')

/-- An RCT-tagged record with a long abstract: it is selected for enrich. -/
def artRCT : Article :=
  ⟨"900", "T", "J", "2026", "", longAbstract, ["Randomized Controlled Trial"], "priority", []⟩

set_option maxRecDepth 8000 in
/-- Counterexample to claim C3 as stated: artRCT is selected for enrichment,
its summarise call fails (ok returns none for everything), it is omitted
from the summaries — yet after the successful send its identifier 900 IS
committed into the sent ledger along with every other unsent identifier, so
it is not reconsidered on subsequent runs. -/
theorem failed_enrichment_still_ledgered :
    artRCT ∈ (select_for_summary [artRCT, art222] 10).1 ∧
    summariesOf (fun _ => none) (select_for_summary [artRCT, art222] 10).1 = [] ∧
    email_pipeline_commit (fun _ => none) [] [artRCT, art222] 10 = some ["900", "222"] ∧
    "900" ∈ ["900", "222"] :=
  ⟨by decide, by decide, by decide, by decide⟩

/-- Claim C3 (amended): a per-record enrichment failure does not abort the
run — the summaries are exactly the successful calls on the enrich picks, a
failed record is omitted from them — but when the run commits, the sent
ledger receives every nonempty identifier of the unsent batch, including
the records whose enrichment failed, so they are not left eligible for
reconsideration. -/
theorem enrichment_failure_run_continues (ok : Article → Option Summary)
    (sent0 : List String) (unsent : List Article) (m : Nat) :
    (∀ a s, (a, s) ∈ summariesOf ok (select_for_summary unsent m).1 ↔
      a ∈ (select_for_summary unsent m).1 ∧ ok a = some s) ∧
    (∀ a ∈ (select_for_summary unsent m).1, ok a = none →
      ∀ s, (a, s) ∉ summariesOf ok (select_for_summary unsent m).1) ∧
    (∀ L, email_pipeline_commit ok sent0 unsent m = some L →
      ∀ a ∈ unsent, a.pmid ≠ "" → a.pmid ∈ L) := by
  have hmemiff : ∀ a s, (a, s) ∈ summariesOf ok (select_for_summary unsent m).1 ↔
      a ∈ (select_for_summary unsent m).1 ∧ ok a = some s := by
    intro a s
    constructor
    · intro h
      rcases List.mem_filterMap.mp h with ⟨b, hb, hfb⟩
      rcases Option.map_eq_some'.mp hfb with ⟨t, ht, heq⟩
      cases heq
      exact ⟨hb, ht⟩
    · rintro ⟨ha, hs⟩
      exact List.mem_filterMap.mpr ⟨a, ha, by rw [hs]; rfl⟩
  refine ⟨hmemiff, fun a ha hnone s hmem => ?_, fun L hL a ha hpm => ?_⟩
  · rcases (hmemiff a s).mp hmem with ⟨_, hsome⟩
    rw [hnone] at hsome
    exact Option.noConfusion hsome
  · simp only [email_pipeline_commit] at hL
    split at hL
    · exact Option.noConfusion hL
    · injection hL with hL2
      rw [← hL2]
      refine List.mem_append.mpr (Or.inr (List.mem_filter.mpr ?_))
      exact ⟨List.mem_map_of_mem _ ha, bne_iff_ne.mpr hpm⟩

/-- Witness for C3: a committed run puts the nonempty identifier 222 of an
unsent record into the sent ledger. -/
theorem enrichment_failure_run_continues_witness :
    email_pipeline_commit (fun _ => none) [] [art222] 10 = some ["222"] ∧
    "222" ∈ ["222"] :=
  ⟨by decide,
   (enrichment_failure_run_continues (fun _ => none) [] [art222] 10).2.2 ["222"]
     (by decide) art222 (by decide) (by decide)⟩

/-- Recognizer for the rename operation (the operation a write-temp-then-
rename strategy would need). -/
def isRename : FsOp → Bool
  | .rename _ _ => true
  | _ => false

/-- A pre-run file system holding a valid seen ledger. -/
def preFS : FS :=
  fun p => if p = "state/seen_pmids.json" then some (.ledgerData "t0" ["111"]) else none

/-- Counterexample to claim C2 as stated: save_seen_pmids performs no rename
at all (so it is not write-temp-then-rename), and a crash right after its
`open(path, "w")` (after 2 of its 3 operations) leaves the ledger file
truncated — neither the previous valid content nor any complete ledger. -/
theorem save_seen_not_atomic :
    (save_seen_pmids_ops "state/seen_pmids.json" "t1" ["222", "111"]).any isRename = false ∧
    preFS "state/seen_pmids.json" = some (.ledgerData "t0" ["111"]) ∧
    runOps preFS ((save_seen_pmids_ops "state/seen_pmids.json" "t1" ["222", "111"]).take 2)
      "state/seen_pmids.json" = some .truncated ∧
    (∀ u ps, FileData.truncated ≠ FileData.ledgerData u ps) :=
  ⟨rfl, rfl, rfl, fun _ _ h => FileData.noConfusion h⟩

/-- Claim C2 (amended): both save helpers write the full ledger — updated
timestamp plus the sorted deduplicated identifier set — directly to the
target path by truncate-then-write, with no rename step; consequently a
crash between the truncating open and the completed write leaves the file
truncated rather than at its previous valid content. -/
theorem save_ops_write_in_place (path now : String) (seen sentIds : List String) (fs : FS) :
    (save_seen_pmids_ops path now seen).any isRename = false ∧
    (save_sent_pmids_ops path now sentIds).any isRename = false ∧
    runOps fs (save_seen_pmids_ops path now seen) path =
      some (.ledgerData now (pythonSortedSet seen)) ∧
    runOps fs (save_sent_pmids_ops path now sentIds) path =
      some (.ledgerData now (pythonSortedSet sentIds)) ∧
    runOps fs ((save_seen_pmids_ops path now seen).take 2) path = some .truncated ∧
    runOps fs ((save_sent_pmids_ops path now sentIds).take 2) path = some .truncated := by
  refine ⟨rfl, rfl, ?_, ?_, ?_, ?_⟩ <;>
    simp [save_seen_pmids_ops, save_sent_pmids_ops, runOps, applyOp]

/-- Failure pattern used in the C1 counterexample: the dated-artifact write
raises. -/
def failDatedWrite : SideEffect → Bool := fun e => e == SideEffect.writeDatedArtifact

/-- Counterexample to claim C1 as stated: in the fetch run, the dated
artifact write fails, yet the seen-ledger save has already executed — the
ledger is not unchanged after the gated side effect failed, because
fetch main saves the seen ledger before writing its output artifacts. -/
theorem seen_ledger_saved_despite_artifact_failure :
    failDatedWrite .writeDatedArtifact = true ∧
    executedSteps failDatedWrite fetch_main_steps = [.saveSeenLedger] ∧
    RunStep.saveSeenLedger ∈ executedSteps failDatedWrite fetch_main_steps ∧
    RunStep.perform .writeDatedArtifact ∉ executedSteps failDatedWrite fetch_main_steps :=
  ⟨rfl, rfl, by decide, by decide⟩

/-- The email run trace, with the per-recipient sends exposed as a mapped
list of side effects. -/
lemma email_main_steps_eq (n : Nat) :
    email_main_steps n =
      ((List.range n).map SideEffect.sendEmail).map RunStep.perform
        ++ [RunStep.saveSentLedger] := by
  simp [email_main_steps, List.map_map]

/-- When some listed side effect fails, only perform-steps before it ran. -/
lemma executed_effects_stop (fails : SideEffect → Bool) (es : List SideEffect)
    (t : List RunStep) (h : ∃ e ∈ es, fails e = true) :
    ∀ s ∈ executedSteps fails (es.map RunStep.perform ++ t),
      ∃ e, s = RunStep.perform e := by
  induction es with
  | nil =>
    rcases h with ⟨e, he, _⟩
    exact absurd he (List.not_mem_nil e)
  | cons e es ih =>
    intro s hs
    simp only [List.map_cons, List.cons_append, executedSteps] at hs
    cases hf : fails e
    · rw [hf] at hs
      simp only [Bool.false_eq_true, if_false, List.mem_cons] at hs
      rcases hs with hs | hs
      · exact ⟨e, hs⟩
      · rcases h with ⟨e', he', hfe⟩
        rcases List.mem_cons.mp he' with he2 | he2
        · rw [he2] at hfe
          rw [hfe] at hf
          exact Bool.noConfusion hf
        · exact ih ⟨e', he2, hfe⟩ s hs
    · rw [hf] at hs
      simp at hs

/-- When every listed side effect succeeds, the whole trace executes. -/
lemma executed_effects_all_ok (fails : SideEffect → Bool) (es : List SideEffect)
    (t : List RunStep) (h : ∀ e ∈ es, fails e = false) :
    executedSteps fails (es.map RunStep.perform ++ t)
      = es.map RunStep.perform ++ executedSteps fails t := by
  induction es with
  | nil => rfl
  | cons e es ih =>
    simp only [List.map_cons, List.cons_append, executedSteps,
      h e (List.mem_cons_self e es), Bool.false_eq_true, if_false, List.cons.injEq, true_and]
    exact ih (fun x hx => h x (List.mem_cons_of_mem e hx))

/-- Claim C1 (amended): in the email run the sent ledger is saved only after
every send call returned without error — a failing send leaves the
sent-ledger save unexecuted, and when all sends succeed the full trace
including the final save runs; in the fetch run, however, the seen-ledger
save executes unconditionally before the output-artifact writes, whatever
side effects fail. -/
theorem commit_ordering_amended (n : Nat) (fails : SideEffect → Bool) :
    RunStep.saveSeenLedger ∈ executedSteps fails fetch_main_steps ∧
    ((∃ i, i < n ∧ fails (.sendEmail i) = true) →
      RunStep.saveSentLedger ∉ executedSteps fails (email_main_steps n)) ∧
    ((∀ i, i < n → fails (.sendEmail i) = false) →
      executedSteps fails (email_main_steps n) = email_main_steps n) := by
  refine ⟨List.mem_cons_self _ _, ?_, ?_⟩
  · rintro ⟨i, hi, hf⟩ hmem
    rw [email_main_steps_eq] at hmem
    have hex : ∃ e ∈ (List.range n).map SideEffect.sendEmail, fails e = true :=
      ⟨SideEffect.sendEmail i, List.mem_map_of_mem _ (List.mem_range.mpr hi), hf⟩
    rcases executed_effects_stop fails _ _ hex _ hmem with ⟨e, he⟩
    exact RunStep.noConfusion he
  · intro hok
    have hall : ∀ e ∈ (List.range n).map SideEffect.sendEmail, fails e = false := by
      intro e he
      rcases List.mem_map.mp he with ⟨i, hi, hie⟩
      rw [← hie]
      exact hok i (List.mem_range.mp hi)
    rw [email_main_steps_eq, executed_effects_all_ok fails _ _ hall]
    rfl

/-- Failure pattern used in the C1 witness: the first send raises. -/
def failFirstSend : SideEffect → Bool := fun e => e == SideEffect.sendEmail 0

/-- Witness for C1: with one recipient whose send fails, the sent-ledger
save does not execute. -/
theorem commit_ordering_amended_witness :
    (0 < 1 ∧ failFirstSend (.sendEmail 0) = true) ∧
    RunStep.saveSentLedger ∉ executedSteps failFirstSend (email_main_steps 1) :=
  ⟨⟨by decide, by decide⟩,
   (commit_ordering_amended 1 failFirstSend).2.1 ⟨0, by decide, by decide⟩⟩

end Cardio
